import Mathlib

/-!
Verification of the win32 backend utilities (`pynput/_util/win32.py`).

The development shallowly embeds the classes `SystemHook`, `MessageLoop`,
`ListenerMixin` and `KeyTranslator`.  Native win32 calls
(`SetWindowsHookEx`, `UnhookWindowsHookEx`, `CallNextHookEx`, `GetMessage`,
`ToUnicodeEx`, `MapVirtualKeyEx`, ...) are modelled as parameters or as an
abstract keyboard-layout oracle; the Python-level control flow is translated
line by line.
-/

set_option autoImplicit false

namespace Pynput

/-- Generic first-match association-list lookup, the model of Python `dict`
indexing used for `SystemHook._HOOKS` and `KeyTranslator._layout_data`. -/
def alookup {α β : Type} [DecidableEq α] (a : α) : List (α × β) → Option β
  | [] => none
  | (k, v) :: rest => if a = k then some v else alookup a rest

/-- The per-instance state of a `SystemHook` object: the constructor argument
`hook_id` and the `_hook` field (`None` until `__enter__` stores the value
returned by `SetWindowsHookEx`). -/
structure HookObj where
  hook_id : Int
  hook : Option Int
deriving DecidableEq, Repr

/-- The class-level registry `SystemHook._HOOKS`, a dict keyed by
`threading.current_thread().ident`. -/
abbrev Registry := List (Nat × HookObj)

/-- Dict lookup in the hook registry. -/
def Registry.find (r : Registry) (k : Nat) : Option HookObj := alookup k r

/-- Dict assignment `_HOOKS[key] = self` (the key is fresh when used). -/
def Registry.insert (r : Registry) (k : Nat) (v : HookObj) : Registry := (k, v) :: r

/-- Dict deletion `del _HOOKS[key]`. -/
def Registry.erase (r : Registry) (k : Nat) : Registry := r.filter (fun p => p.1 ≠ k)

/-- `SystemHook.__enter__`: assert the current thread id is unregistered,
register `self`, install the native hook and store its handle.  `osHandle` is
the value returned by `SetWindowsHookEx` (0 when installation yields no
handle).  The result pairs the outcome (`.error ()` models the
`AssertionError`, raised before any state is modified) with the registry
after the call. -/
def SystemHook.enter (r : Registry) (key : Nat) (self : HookObj) (osHandle : Int) :
    Except Unit HookObj × Registry :=
  if (Registry.find r key).isSome then (.error (), r)
  else
    let self1 : HookObj := { self with hook := some osHandle }
    (.ok self1, Registry.insert r key self1)

/-- `SystemHook.__exit__`: assert the current thread id is registered; if
`self._hook is not None`, call `UnhookWindowsHookEx` on it and delete the
registry entry.  `exc` records whether the scope is being exited through
exception propagation; the body ignores the `exc_type`/`value`/`traceback`
arguments, so the result does not depend on it.  On success the result is the
updated registry together with the list of handles passed to
`UnhookWindowsHookEx`. -/
def SystemHook.exitScope (r : Registry) (key : Nat) (self : HookObj) (exc : Bool) :
    Except Unit (Registry × List Int) :=
  if (Registry.find r key).isNone then .error ()
  else
    match self.hook with
    | some h => .ok (Registry.erase r key, [h])
    | none => .ok (r, [])

/-- The possible outcomes of the user callback `self.on_hook(code, msg,
lpdata)` inside `SystemHook._handler`: normal return, raising
`SystemHook.SuppressException`, or raising any other exception. -/
inductive CbOutcome where
  | ret
  | suppressExc
  | otherExc
deriving DecidableEq, Repr

/-- `SystemHook._handler`: the static hook procedure registered with the OS.
`registered` states whether `_HOOKS.get(key)` found a hook for the current
thread; `next` is the value returned by `CallNextHookEx`.  The result is the
value returned to the OS (`none` models Python's implicit `None`) paired with
whether `CallNextHookEx` was invoked. -/
def SystemHook.handler (registered : Bool) (outcome : CbOutcome) (next : Int) :
    Option Int × Bool :=
  match registered with
  | true =>
    match outcome with
    | .suppressExc => (some 1, false)
    | .ret => (some next, true)
    | .otherExc => (some next, true)
  | false => (none, false)

/- ### Registry helper lemmas -/

theorem alookup_none_of_not_mem {α β : Type} [DecidableEq α] (a : α)
    (l : List (α × β)) : alookup a l = none → ∀ p ∈ l, p.1 ≠ a := by
  induction l with
  | nil => intro _ p hp; cases hp
  | cons q rest ih =>
    obtain ⟨k, v⟩ := q
    intro h p hp
    rw [alookup] at h
    by_cases hak : a = k
    · rw [if_pos hak] at h; cases h
    · rw [if_neg hak] at h
      cases hp with
      | head => exact fun hc => hak hc.symm
      | tail _ htl => exact ih h p htl

theorem Registry.erase_of_find_none (r : Registry) (k : Nat)
    (h : Registry.find r k = none) : Registry.erase r k = r := by
  rw [Registry.erase, List.filter_eq_self]
  intro p hp
  simpa using alookup_none_of_not_mem k r h p hp

theorem Registry.find_insert (r : Registry) (k : Nat) (v : HookObj) :
    Registry.find (Registry.insert r k v) k = some v := by
  simp [Registry.find, Registry.insert, alookup]

theorem Registry.erase_insert (r : Registry) (k : Nat) (v : HookObj) :
    Registry.erase (Registry.insert r k v) k = Registry.erase r k := by
  simp [Registry.erase, Registry.insert, List.filter_cons]

theorem Registry.find_erase (r : Registry) (k : Nat) :
    Registry.find (Registry.erase r k) k = none := by
  induction r with
  | nil => rfl
  | cons q rest ih =>
    obtain ⟨k', v⟩ := q
    by_cases hk : k' = k
    · simpa [Registry.erase, Registry.find, List.filter_cons, hk] using ih
    · have hne : k ≠ k' := fun h => hk h.symm
      simpa [Registry.erase, Registry.find, List.filter_cons, hk, alookup, hne] using ih

/- ### MessageLoop -/

/-- `MessageLoop.WM_STOP`, the message that signals the loop to terminate. -/
def WM_STOP : Nat := 0x0401

/-- A windows message as seen by the loop (`msg.message`, `msg.wParam`,
`msg.lParam`). -/
structure Msg where
  message : Nat
  wParam : Nat
  lParam : Nat
deriving DecidableEq, Repr

/-- The state of a `MessageLoop` object: `_threadid` (`None` until `start`,
cleared again when iteration finishes) and whether the `threading.Event`
`_event` has been set. -/
structure MessageLoop where
  threadid : Option Nat
  eventSet : Bool
deriving DecidableEq, Repr

/-- `MessageLoop.__init__`: `_threadid = None`, `_event` unset. -/
def MessageLoop.init : MessageLoop := { threadid := none, eventSet := false }

/-- `MessageLoop.start`, called from the thread with id `tid`: binds
`_threadid`, peeks the queue into existence and sets `_event`.  The body
performs no precondition check and cannot fail. -/
def MessageLoop.start (m : MessageLoop) (tid : Nat) : MessageLoop :=
  { m with threadid := some tid, eventSet := true }

/-- `MessageLoop.stop`: first `self._event.wait()`, then post `WM_STOP` if
`self._threadid` is truthy.  `none` models the call blocking forever inside
`wait()` because nothing ever sets the event; `some ps` models a returning
call, with `ps` the list of `(msg, wParam, lParam)` triples handed to
`PostThreadMessage`. -/
def MessageLoop.stop (m : MessageLoop) : Option (List (Nat × Nat × Nat)) :=
  match m.eventSet with
  | false => none
  | true =>
    some (match m.threadid with
      | some t => if t ≠ 0 then [(WM_STOP, 0, 0)] else []
      | none => [])

/-- The message-pumping loop inside `MessageLoop.__iter__`.  The queue lists
the successive results of `GetMessage` (return value `r` and the filled-in
message); pumping stops at the first wait failure (`r <= 0`) or `WM_STOP`,
and the messages before that point are the ones yielded. -/
def MessageLoop.pump : List (Int × Msg) → List Msg
  | [] => []
  | (r, msg) :: rest =>
    if r ≤ 0 ∨ msg.message = WM_STOP then []
    else msg :: MessageLoop.pump rest

/-- `MessageLoop.__iter__`: assert `_threadid is not None` (an
`AssertionError`, modelled by `.error ()`), pump messages, and in the
`finally` block clear `_threadid`.  On success the result is the list of
yielded messages and the final loop state. -/
def MessageLoop.iterate (m : MessageLoop) (queue : List (Int × Msg)) :
    Except Unit (List Msg × MessageLoop) :=
  match m.threadid with
  | none => .error ()
  | some _ => .ok (MessageLoop.pump queue, { m with threadid := none })

/- ### ListenerMixin -/

/-- `ListenerMixin._WM_PROCESS`, the message id signalling that an event
should be handled by the device-specific processor. -/
def WM_PROCESS : Nat := 0x410

/-- Where the body of `ListenerMixin._run` routes one drained message:
`self._process(wParam, lParam)` or
`self._on_notification(message, wParam, lParam)`. -/
inductive Dispatch where
  | process (wParam lParam : Nat)
  | notification (message wParam lParam : Nat)
deriving DecidableEq, Repr

/-- The dispatch-by-id conditional in `ListenerMixin._run`: messages equal to
`_WM_PROCESS` go to `_process`; otherwise messages whose id is in
`_WM_NOTIFICATIONS` go to `_on_notification`; anything else is dropped. -/
def ListenerMixin.dispatchMsg (notifications : List Nat) (msg : Msg) : Option Dispatch :=
  if msg.message = WM_PROCESS then some (.process msg.wParam msg.lParam)
  else if msg.message ∈ notifications then
    some (.notification msg.message msg.wParam msg.lParam)
  else none

/-- The run body of `ListenerMixin._run` restricted to its drain-and-dispatch
loop (the `running` flag is modelled as staying true): iterate the message
loop and dispatch every yielded message by id. -/
def ListenerMixin.runBody (notifications : List Nat) (m : MessageLoop)
    (queue : List (Int × Msg)) : Except Unit (List Dispatch) :=
  match MessageLoop.iterate m queue with
  | .error e => .error e
  | .ok (msgs, _) => .ok (msgs.filterMap (ListenerMixin.dispatchMsg notifications))

theorem mem_pump_not_stop (q : List (Int × Msg)) (msg : Msg)
    (hm : msg ∈ MessageLoop.pump q) : msg.message ≠ WM_STOP := by
  induction q with
  | nil => cases hm
  | cons p rest ih =>
    obtain ⟨r, m'⟩ := p
    rw [MessageLoop.pump] at hm
    split at hm
    · cases hm
    · next hcond =>
      cases hm with
      | head => exact fun hstop => hcond (Or.inr hstop)
      | tail _ htl => exact ih htl

/- ### KeyTranslator -/

/-- The `(shift, ctrl, alt)` triple keying `_layout_data`. -/
abbrev ModState := Bool × Bool × Bool

/-- One `_layout_data` cell: `(character, is_dead)`, defaulting to
`(None, False)`. -/
abbrev Entry := Option Char × Bool

/-- Windows virtual-key constant `VK.DECIMAL` (`win32_vks` module), the key
used for the corrective flushing call. -/
def VK_DECIMAL : Nat := 0x6E

/-- The length of the keyboard-state buffer `(ctypes.c_ubyte * 255)()` in
`_generate_layout`; the scan codes enumerated are `range(255)`. -/
def numScans : Nat := 255

/-- The abstract keyboard-layout oracle standing for the native layout
functions.  `toVk`/`toScan` model `MapVirtualKeyEx` with
`MAPVK_VSC_TO_VK`/`MAPVK_VK_TO_VSC`; `base vk scan mods` models the
`(count, out[0])` result of `ToUnicodeEx` when the layout holds no pending
dead key and the keyboard-state buffer holds exactly the modifiers `mods`;
`comb vk scan mods` models its result when a dead key is pending (the call
then consumes the pending state); `handle` models `GetKeyboardLayout`. -/
structure OsLayout where
  toVk : Nat → Nat
  toScan : Nat → Nat
  base : Nat → Nat → ModState → Int × Char
  comb : Nat → Nat → ModState → Int × Char
  handle : Nat

/-- One `ToUnicodeEx` call against the oracle.  The Boolean is the layout's
internal dead-key state: a call with a pending dead key consumes it; a call
on a clean layout leaves a pending dead key exactly when its count is
negative. -/
def toUnicodeEx (os : OsLayout) (vk scan : Nat) (mods : ModState) (pending : Bool) :
    (Int × Char) × Bool :=
  match pending with
  | true => (os.comb vk scan mods, false)
  | false =>
    let r := os.base vk scan mods
    (r, decide (r.1 < 0))

/-- A record of one `ToUnicodeEx` invocation issued during `_generate_layout`
(`corrective = true` for the flushing call made after a dead key). -/
structure UCall where
  corrective : Bool
  vk : Nat
  scan : Nat
  mods : ModState
deriving DecidableEq, Repr

/-- The body of the inner loop of `_generate_layout` for one `(scan, vk)`
pair: translate the key; if the count is nonzero record
`(out[0], count < 0)`, and if the key is dead immediately issue the
corrective call `ToUnicodeEx(VK.DECIMAL, vks[VK.DECIMAL], ...)` (`dvk`
stands for `vks[VK.DECIMAL]`).  Returns the cache entry for `scan`, the
layout's dead-key state afterwards and the trace of calls issued. -/
def transStep (os : OsLayout) (dvk : Nat) (mods : ModState) (scan vk : Nat)
    (p : Bool) : Entry × Bool × List UCall :=
  let m := toUnicodeEx os vk scan mods p
  let count := m.1.1
  if count ≠ 0 then
    let e : Entry := (some m.1.2, decide (count < 0))
    if count < 0 then
      let c := toUnicodeEx os VK_DECIMAL dvk mods m.2
      (e, c.2, [⟨false, vk, scan, mods⟩, ⟨true, VK_DECIMAL, dvk, mods⟩])
    else
      (e, m.2, [⟨false, vk, scan, mods⟩])
  else
    ((none, false), m.2, [⟨false, vk, scan, mods⟩])

/-- The inner loop of `_generate_layout` over `enumerate(vks)`, threading the
layout's dead-key state: returns the `current` array for one modifier
combination, the final dead-key state and the concatenated call trace. -/
def transList (os : OsLayout) (dvk : Nat) (mods : ModState) :
    List (Nat × Nat) → Bool → List Entry × Bool × List UCall
  | [], p => ([], p, [])
  | (scan, vk) :: rest, p =>
    let s := transStep os dvk mods scan vk p
    let r := transList os dvk mods rest s.2.1
    (s.1 :: r.1, r.2.1, s.2.2 ++ r.2.2)

/-- The eight modifier combinations, in the order produced by
`itertools.product((False, True), (False, True), (False, True))`. -/
def modCombos : List ModState :=
  [(false, false, false), (false, false, true), (false, true, false), (false, true, true),
   (true, false, false), (true, false, true), (true, true, false), (true, true, true)]

/-- The outer loop of `_generate_layout` over the modifier combinations,
building `layout_data` as an association list in iteration order. -/
def transRows (os : OsLayout) (dvk : Nat) (scans : List (Nat × Nat)) :
    List ModState → Bool → List (ModState × List Entry) × Bool × List UCall
  | [], p => ([], p, [])
  | mods :: rest, p =>
    let row := transList os dvk mods scans p
    let r := transRows os dvk scans rest row.2.1
    ((mods, row.1) :: r.1, r.2.1, row.2.2 ++ r.2.2)

/-- `KeyTranslator._generate_layout`: derive `vks[scan] = to_vk(scan)` for
`scan in range(255)` and fill the cache for all eight modifier combinations.
`pending0` is the layout's dead-key state when the build starts.  Returns
`((layout_handle, layout_data), final_dead_state, call_trace)`. -/
def KeyTranslator.generate_layout (os : OsLayout) (pending0 : Bool) :
    (Nat × List (ModState × List Entry)) × Bool × List UCall :=
  let scans := (List.range numScans).map (fun s => (s, os.toVk s))
  let dvk := os.toVk VK_DECIMAL
  let r := transRows os dvk scans modCombos pending0
  ((os.handle, r.1), r.2)

/-- The `_layout` and `_layout_data` fields of a `KeyTranslator`. -/
structure KeyTranslator where
  layout : Nat
  layout_data : List (ModState × List Entry)

/-- `KeyTranslator.update_layout` (also run by `__init__`): replace the
cached layout wholesale with the result of `_generate_layout`. -/
def KeyTranslator.update_layout (os : OsLayout) (pending0 : Bool) : KeyTranslator :=
  let g := KeyTranslator.generate_layout os pending0
  { layout := g.1.1, layout_data := g.1.2 }

/-- `KeyTranslator.char_from_scan`:
`self._layout_data[(False, False, False)][scan][0]`.  The outer `Option` is
`none` when the Python expression would raise (`KeyError`/`IndexError`). -/
def KeyTranslator.char_from_scan (t : KeyTranslator) (scan : Nat) :
    Option (Option Char) :=
  match alookup (false, false, false) t.layout_data with
  | none => none
  | some row => (row.get? scan).map Prod.fst

/-- The dictionary returned by `KeyTranslator.__call__`
(`char`, `is_dead`, `vk`, `_scan`). -/
structure KeyCodeParams where
  char : Option Char
  is_dead : Bool
  vk : Nat
  scan : Nat
deriving DecidableEq, Repr

/-- `KeyTranslator.__call__(vk, is_press)`: look up the row for the sampled
modifier state (`mods` stands for the `_modifier_state()` sample), derive the
scan code with `_to_scan` and read the cached `(character, is_dead)` cell.
`none` models the Python call raising `KeyError`/`IndexError`. -/
def KeyTranslator.call (os : OsLayout) (t : KeyTranslator) (mods : ModState)
    (vk : Nat) (is_press : Bool) : Option KeyCodeParams :=
  match alookup mods t.layout_data with
  | none => none
  | some row =>
    let scan := os.toScan vk
    match row.get? scan with
    | none => none
    | some e => some { char := e.1, is_dead := e.2, vk := vk, scan := scan }

/-- The entry `_generate_layout` stores for a `(scan, vk)` pair under `mods`
when the layout holds no pending dead key at the time of the call: the pure
image of the oracle's base table. -/
def pureEntry (os : OsLayout) (mods : ModState) (sv : Nat × Nat) : Entry :=
  let r := os.base sv.2 sv.1 mods
  if r.1 ≠ 0 then (some r.2, decide (r.1 < 0)) else (none, false)

/- ### Layout-generation helper lemmas -/

theorem transStep_clean (os : OsLayout) (dvk : Nat) (mods : ModState)
    (scan vk : Nat) :
    transStep os dvk mods scan vk false =
      (pureEntry os mods (scan, vk), false,
        ⟨false, vk, scan, mods⟩ ::
          (if (os.base vk scan mods).1 < 0 then
            [⟨true, VK_DECIMAL, dvk, mods⟩] else [])) := by
  by_cases h0 : (os.base vk scan mods).1 = 0
  · have hneg : ¬ (os.base vk scan mods).1 < 0 := by omega
    simp [transStep, toUnicodeEx, pureEntry, h0, hneg]
  · by_cases hneg : (os.base vk scan mods).1 < 0
    · simp [transStep, toUnicodeEx, pureEntry, h0, hneg]
    · simp [transStep, toUnicodeEx, pureEntry, h0, hneg]

theorem transList_clean (os : OsLayout) (dvk : Nat) (mods : ModState)
    (scans : List (Nat × Nat)) :
    (transList os dvk mods scans false).1 = scans.map (pureEntry os mods) ∧
      (transList os dvk mods scans false).2.1 = false := by
  induction scans with
  | nil => exact ⟨rfl, rfl⟩
  | cons sv rest ih =>
    obtain ⟨scan, vk⟩ := sv
    rw [transList]
    rw [transStep_clean]
    exact ⟨by simp [ih.1], by simp [ih.2]⟩

theorem transRows_clean (os : OsLayout) (dvk : Nat) (scans : List (Nat × Nat))
    (combos : List ModState) :
    (transRows os dvk scans combos false).1 =
        combos.map (fun m => (m, scans.map (pureEntry os m))) ∧
      (transRows os dvk scans combos false).2.1 = false := by
  induction combos with
  | nil => exact ⟨rfl, rfl⟩
  | cons m rest ih =>
    rw [transRows]
    rw [(transList_clean os dvk m scans).2]
    exact ⟨by simp [ih.1, (transList_clean os dvk m scans).1], by simp [ih.2]⟩

theorem transList_length (os : OsLayout) (dvk : Nat) (mods : ModState) :
    ∀ (scans : List (Nat × Nat)) (p : Bool),
      (transList os dvk mods scans p).1.length = scans.length := by
  intro scans
  induction scans with
  | nil => intro p; rfl
  | cons sv rest ih =>
    obtain ⟨scan, vk⟩ := sv
    intro p
    rw [transList]
    simp [ih]

theorem transRows_row_length (os : OsLayout) (dvk : Nat)
    (scans : List (Nat × Nat)) :
    ∀ (combos : List ModState) (p : Bool) (mods : ModState) (row : List Entry),
      alookup mods (transRows os dvk scans combos p).1 = some row →
      row.length = scans.length := by
  intro combos
  induction combos with
  | nil => intro p mods row h; cases h
  | cons m rest ih =>
    intro p mods row h
    rw [transRows] at h
    rw [alookup] at h
    split at h
    · cases h
      exact transList_length os dvk m scans p
    · exact ih _ mods row h

theorem transRows_map_fst (os : OsLayout) (dvk : Nat)
    (scans : List (Nat × Nat)) :
    ∀ (combos : List ModState) (p : Bool),
      (transRows os dvk scans combos p).1.map Prod.fst = combos := by
  intro combos
  induction combos with
  | nil => intro p; rfl
  | cons m rest ih =>
    intro p
    rw [transRows]
    simp [ih]

theorem alookup_map_self {β : Type} (f : ModState → β) (mods : ModState) :
    ∀ l : List ModState, mods ∈ l →
      alookup mods (l.map (fun m => (m, f m))) = some (f mods) := by
  intro l
  induction l with
  | nil => intro h; cases h
  | cons m rest ih =>
    intro hm
    by_cases h : mods = m
    · subst h; simp [alookup]
    · have : mods ∈ rest := by
        cases hm with
        | head => exact absurd rfl h
        | tail _ htl => exact htl
      simpa [alookup, h] using ih this

/- ### Claim theorems -/

/-- C1: for every exit of the `SystemHook` scope on a thread (normal return
or exception propagation, and for any handle returned by the native install,
including 0 when installation yielded no handle), release runs exactly once:
`UnhookWindowsHookEx` is called exactly once with the stored handle and the
thread's entry is removed from `_HOOKS`, so after exit the registry no
longer contains an entry for that thread id. -/
theorem systemHook_scope_releases_once (r : Registry) (key : Nat)
    (self : HookObj) (h : Int) (exc : Bool)
    (hfree : Registry.find r key = none) :
    ∃ self1 r1 r2,
      SystemHook.enter r key self h = (.ok self1, r1) ∧
      SystemHook.exitScope r1 key self1 exc = .ok (r2, [h]) ∧
      r2 = r ∧ Registry.find r2 key = none := by
  refine ⟨{ self with hook := some h },
    Registry.insert r key { self with hook := some h }, r, ?_, ?_, rfl, hfree⟩
  · simp [SystemHook.enter, hfree]
  · simp [SystemHook.exitScope, Registry.find_insert, Registry.erase_insert,
      Registry.erase_of_find_none r key hfree]

/-- Witness for C1 at a concrete input, exercising the no-handle path
(`SetWindowsHookEx` returned 0) together with exit-by-exception. -/
theorem systemHook_scope_releases_once_witness :
    Registry.find ([] : Registry) 7 = none ∧
    ∃ self1 r1 r2,
      SystemHook.enter ([] : Registry) 7 ⟨13, none⟩ 0 = (.ok self1, r1) ∧
      SystemHook.exitScope r1 7 self1 true = .ok (r2, [0]) ∧
      r2 = [] ∧ Registry.find r2 7 = none :=
  ⟨rfl, systemHook_scope_releases_once [] 7 ⟨13, none⟩ 0 true rfl⟩

/-- C2: entering a second `SystemHook` on a thread whose id is already in
`_HOOKS` fails fast with the precondition `AssertionError` and leaves the
existing registration unchanged: the registry still maps the thread id to
the original hook object with its original native handle. -/
theorem systemHook_double_enter_rejected (r : Registry) (key : Nat)
    (self orig : HookObj) (h : Int)
    (hlive : Registry.find r key = some orig) :
    SystemHook.enter r key self h = (.error (), r) ∧
    Registry.find (SystemHook.enter r key self h).2 key = some orig := by
  have he : SystemHook.enter r key self h = (.error (), r) := by
    simp [SystemHook.enter, hlive]
  exact ⟨he, by rw [he]; exact hlive⟩

/-- Witness for C2 at a concrete input: a live registration with handle 99
is untouched by a second enter. -/
theorem systemHook_double_enter_rejected_witness :
    Registry.find [(5, (⟨2, some 99⟩ : HookObj))] 5 = some ⟨2, some 99⟩ ∧
    (SystemHook.enter [(5, ⟨2, some 99⟩)] 5 ⟨3, none⟩ 7 =
        (.error (), [(5, ⟨2, some 99⟩)]) ∧
      Registry.find (SystemHook.enter [(5, ⟨2, some 99⟩)] 5 ⟨3, none⟩ 7).2 5 =
        some ⟨2, some 99⟩) :=
  ⟨rfl, systemHook_double_enter_rejected [(5, ⟨2, some 99⟩)] 5 ⟨3, none⟩ ⟨2, some 99⟩ 7 rfl⟩

/-- C3: on a thread with a registered hook, the hook procedure always
returns a value to the OS: if `on_hook` raises the suppression signal the
wrapper returns the nonzero suppression code 1 without propagating further
(`CallNextHookEx` is not invoked); if `on_hook` raises any other exception
it is swallowed and the wrapper returns the `CallNextHookEx` value, exactly
as on normal return. -/
theorem systemHook_handler_protocol (outcome : CbOutcome) (next : Int) :
    (SystemHook.handler true outcome next).1.isSome = true ∧
    SystemHook.handler true .suppressExc next = (some 1, false) ∧
    (1 : Int) ≠ 0 ∧
    SystemHook.handler true .otherExc next = (some next, true) ∧
    SystemHook.handler true .ret next = (some next, true) := by
  refine ⟨?_, rfl, by decide, rfl, rfl⟩
  cases outcome <;> rfl

/-- C5 counterexample: `stop` invoked on a freshly-constructed loop, with
`start` never invoked, blocks forever inside `self._event.wait()` (nothing
ever sets the event), so the call does not return. -/
theorem messageLoop_stop_before_start_blocks :
    MessageLoop.stop MessageLoop.init = none := rfl

/-- C5 (amended): `stop` never raises; once the registration event from
`start` has been set, every `stop` call (including repeated calls — `stop`
does not change the loop state) returns, posting the reserved `WM_STOP`
message exactly when `_threadid` is truthy; before the event is set, `stop`
blocks until `start`'s registration completes. -/
theorem messageLoop_stop_after_registration (m : MessageLoop)
    (hev : m.eventSet = true) :
    ∃ ps, MessageLoop.stop m = some ps ∧
      (∀ t, m.threadid = some t → t ≠ 0 → ps = [(WM_STOP, 0, 0)]) ∧
      ((m.threadid = none ∨ m.threadid = some 0) → ps = []) := by
  obtain ⟨tid, ev⟩ := m
  simp only at hev
  subst hev
  cases tid with
  | none =>
    refine ⟨[], rfl, ?_, fun _ => rfl⟩
    intro t ht
    simp at ht
  | some t =>
    by_cases ht : t = 0
    · subst ht
      refine ⟨[], rfl, ?_, fun _ => rfl⟩
      intro t' ht' hne
      simp at ht'
      exact absurd ht'.symm hne
    · refine ⟨[(WM_STOP, 0, 0)], ?_, fun _ _ _ => rfl, ?_⟩
      · simp [MessageLoop.stop, ht]
      · intro hor
        rcases hor with h | h
        · cases h
        · exact absurd (Option.some.inj h) ht

/-- Witness for C5 (amended) after a concrete `start` on thread 1. -/
theorem messageLoop_stop_after_registration_witness :
    (MessageLoop.start MessageLoop.init 1).eventSet = true ∧
    ∃ ps, MessageLoop.stop (MessageLoop.start MessageLoop.init 1) = some ps ∧
      (∀ t, (MessageLoop.start MessageLoop.init 1).threadid = some t → t ≠ 0 →
        ps = [(WM_STOP, 0, 0)]) ∧
      (((MessageLoop.start MessageLoop.init 1).threadid = none ∨
          (MessageLoop.start MessageLoop.init 1).threadid = some 0) → ps = []) :=
  ⟨rfl, messageLoop_stop_after_registration (MessageLoop.start MessageLoop.init 1) rfl⟩

/-- C6 counterexample: `start` contains no precondition check, so a second
`start` on an already-started loop does not fail — it returns normally and
silently rebinds `_threadid` to the new calling thread. -/
theorem messageLoop_double_start_rebinds :
    MessageLoop.start (MessageLoop.start MessageLoop.init 1) 2 =
      { threadid := some 2, eventSet := true } ∧
    (MessageLoop.start (MessageLoop.start MessageLoop.init 1) 2).threadid ≠
      (MessageLoop.start MessageLoop.init 1).threadid := ⟨rfl, by decide⟩

/-- C6 (amended): beginning iteration before `start` has been called fails
with the precondition `AssertionError`, fatal to the call; a second `start`
does not fail and silently rebinds the loop to the calling thread. -/
theorem messageLoop_start_iterate_preconditions (m : MessageLoop)
    (q : List (Int × Msg)) (t1 t2 : Nat) :
    MessageLoop.iterate { m with threadid := none } q = .error () ∧
    MessageLoop.start (MessageLoop.start m t1) t2 =
      { threadid := some t2, eventSet := true } := ⟨rfl, rfl⟩

/-- C9: in the listener run loop, a message with id `_WM_PROCESS` is routed
only to the device-specific processor; provided `_WM_PROCESS` is not in
`_WM_NOTIFICATIONS`, a message whose id is in `_WM_NOTIFICATIONS` is routed
only to the notification handler and never treated as ordinary input; the
reserved stop id `WM_STOP` is distinct from `_WM_PROCESS`, terminates the
message pump at once and never appears among the pumped messages, so it is
dispatched to neither handler. -/
theorem listener_dispatch_by_id (notifications : List Nat)
    (hno : WM_PROCESS ∉ notifications) :
    (∀ msg : Msg, msg.message = WM_PROCESS →
      ListenerMixin.dispatchMsg notifications msg =
        some (.process msg.wParam msg.lParam)) ∧
    (∀ msg : Msg, msg.message ∈ notifications →
      ListenerMixin.dispatchMsg notifications msg =
        some (.notification msg.message msg.wParam msg.lParam)) ∧
    WM_STOP ≠ WM_PROCESS ∧
    (∀ (r : Int) (m' : Msg) (rest : List (Int × Msg)), m'.message = WM_STOP →
      MessageLoop.pump ((r, m') :: rest) = []) ∧
    (∀ (q : List (Int × Msg)) (msg : Msg), msg ∈ MessageLoop.pump q →
      msg.message ≠ WM_STOP) := by
  refine ⟨?_, ?_, by decide, ?_, fun q msg hm => mem_pump_not_stop q msg hm⟩
  · intro msg h
    simp [ListenerMixin.dispatchMsg, h]
  · intro msg h
    have hne : msg.message ≠ WM_PROCESS := fun he => hno (he ▸ h)
    simp [ListenerMixin.dispatchMsg, hne, h]
  · intro r m' rest h
    rw [MessageLoop.pump, if_pos (Or.inr h)]

/-- Witness for C9 with the concrete notification set `[0x51]`
(`WM_INPUTLANGCHANGE`), one processing message and one notification
message. -/
theorem listener_dispatch_by_id_witness :
    WM_PROCESS ∉ [0x51] ∧
    ListenerMixin.dispatchMsg [0x51] ⟨WM_PROCESS, 5, 6⟩ = some (.process 5 6) ∧
    ListenerMixin.dispatchMsg [0x51] ⟨0x51, 7, 8⟩ = some (.notification 0x51 7 8) := by
  refine ⟨by decide, ?_, ?_⟩
  · exact (listener_dispatch_by_id [0x51] (by decide)).1 ⟨WM_PROCESS, 5, 6⟩ rfl
  · exact (listener_dispatch_by_id [0x51] (by decide)).2.1 ⟨0x51, 7, 8⟩ (by decide)

/-- A concrete trivial layout oracle used by witnesses: every key is
unmapped. -/
def osFlat : OsLayout :=
  { toVk := fun s => s, toScan := fun v => v,
    base := fun _ _ _ => (0, ' '), comb := fun _ _ _ => (0, ' '), handle := 0 }

/-- A concrete layout oracle whose every clean-state translation is a dead
key, used by the C8 witness. -/
def osDead : OsLayout :=
  { toVk := fun s => s, toScan := fun v => v,
    base := fun _ _ _ => (-1, '^'), comb := fun _ _ _ => (1, 'o'), handle := 0 }

/-- A concrete one-row translator state used by the C10 witness. -/
def tTiny : KeyTranslator :=
  { layout := 0,
    layout_data := [((false, false, false), [(some 'a', false), (none, false)])] }

/-- C4 (code behaviour): after `update_layout` the cache maps exactly the 8
modifier combinations, but each combination's array has 255 entries (scan
codes 0..254, the length of the `(ctypes.c_ubyte * 255)()` buffer), not 256:
index 255 is out of range.  Scan codes producing no character (translation
count 0) are recorded as `(None, False)` rather than as an error. -/
theorem generate_layout_shape (os : OsLayout) :
    ((KeyTranslator.update_layout os false).layout_data).map Prod.fst = modCombos ∧
    (∀ mods, mods ∈ modCombos →
      ∃ row,
        alookup mods (KeyTranslator.update_layout os false).layout_data = some row ∧
        row.length = 255 ∧ row.length ≠ 256 ∧ row.get? 255 = none ∧
        (∀ scan, scan < 255 → (os.base (os.toVk scan) scan mods).1 = 0 →
          row.get? scan = some ((none : Option Char), false))) := by
  have hdata : (KeyTranslator.update_layout os false).layout_data =
      (transRows os (os.toVk VK_DECIMAL)
        ((List.range numScans).map (fun s => (s, os.toVk s))) modCombos false).1 := rfl
  have hclean := (transRows_clean os (os.toVk VK_DECIMAL)
    ((List.range numScans).map (fun s => (s, os.toVk s))) modCombos).1
  rw [hdata, hclean]
  constructor
  · simp [Function.comp_def]
  · intro mods hm
    refine ⟨((List.range numScans).map (fun s => (s, os.toVk s))).map (pureEntry os mods),
      alookup_map_self _ mods modCombos hm, ?_, ?_, ?_, ?_⟩
    · simp [numScans]
    · simp [numScans]
    · apply List.get?_eq_none.mpr
      simp [numScans]
    · intro scan hs h0
      rw [List.get?_map, List.get?_map,
        List.get?_range (show scan < numScans from hs)]
      simp [pureEntry, h0]

/-- Witness for C4 at the trivial oracle: the no-modifier row exists, has
255 entries, lacks index 255, and records the unmapped scan code 3 as
`(None, False)`. -/
theorem generate_layout_shape_witness :
    ((false, false, false) ∈ modCombos) ∧ 3 < 255 ∧
    (osFlat.base (osFlat.toVk 3) 3 (false, false, false)).1 = 0 ∧
    ∃ row,
      alookup (false, false, false)
        (KeyTranslator.update_layout osFlat false).layout_data = some row ∧
      row.length = 255 ∧ row.length ≠ 256 ∧ row.get? 255 = none ∧
      row.get? 3 = some ((none : Option Char), false) := by
  obtain ⟨-, h2⟩ := generate_layout_shape osFlat
  obtain ⟨row, hr, hl, hl', h255, hd⟩ := h2 (false, false, false) (by decide)
  exact ⟨by decide, by decide, rfl, row, hr, hl, hl', h255, hd 3 (by decide) rfl⟩

/-- C7: after `update_layout`, for every scan code indexable in the cache,
`char_from_scan(s)` returns exactly the character component of the cached
entry for the all-false modifier state at index `s`. -/
theorem char_from_scan_reads_no_modifier_entry (os : OsLayout) (p0 : Bool)
    (scan : Nat) (hs : scan < 255) :
    ∃ row e,
      alookup (false, false, false)
        (KeyTranslator.update_layout os p0).layout_data = some row ∧
      row.get? scan = some e ∧
      (KeyTranslator.update_layout os p0).char_from_scan scan = some e.1 := by
  have hlk : alookup (false, false, false)
      (KeyTranslator.update_layout os p0).layout_data =
      some (transList os (os.toVk VK_DECIMAL) (false, false, false)
        ((List.range numScans).map (fun s => (s, os.toVk s))) p0).1 := rfl
  have hlen : (transList os (os.toVk VK_DECIMAL) (false, false, false)
      ((List.range numScans).map (fun s => (s, os.toVk s))) p0).1.length = 255 := by
    rw [transList_length]
    simp [numScans]
  obtain ⟨e, he⟩ : ∃ e, (transList os (os.toVk VK_DECIMAL) (false, false, false)
      ((List.range numScans).map (fun s => (s, os.toVk s))) p0).1.get? scan = some e := by
    cases hget : (transList os (os.toVk VK_DECIMAL) (false, false, false)
        ((List.range numScans).map (fun s => (s, os.toVk s))) p0).1.get? scan with
    | none =>
      have := List.get?_eq_none.mp hget
      omega
    | some e => exact ⟨e, rfl⟩
  refine ⟨_, e, hlk, he, ?_⟩
  have hcf : (KeyTranslator.update_layout os p0).char_from_scan scan =
      ((transList os (os.toVk VK_DECIMAL) (false, false, false)
        ((List.range numScans).map (fun s => (s, os.toVk s))) p0).1.get? scan).map
        Prod.fst := by
    unfold KeyTranslator.char_from_scan
    rw [hlk]
  rw [hcf, he]
  rfl

/-- Witness for C7 at the trivial oracle and scan code 3. -/
theorem char_from_scan_reads_no_modifier_entry_witness :
    3 < 255 ∧
    ∃ row e,
      alookup (false, false, false)
        (KeyTranslator.update_layout osFlat false).layout_data = some row ∧
      row.get? 3 = some e ∧
      (KeyTranslator.update_layout osFlat false).char_from_scan 3 = some e.1 :=
  ⟨by decide, char_from_scan_reads_no_modifier_entry osFlat false 3 (by decide)⟩

/-- C8: during cache build, a scan code translating under a clean layout
state runs as follows: the entry is recorded as the pure base translation —
in particular with `is_dead = true` whenever the count is negative — and
exactly one corrective neutralizing call (`VK.DECIMAL`) is issued
immediately afterwards, before any further scan code is translated, exactly
when the key was dead; the layout state is clean again after the step.
Consequently the whole cache built from a clean state equals the pointwise
pure base translation — no entry is affected by any dead key's residual
state — and the layout state is clean after the build. -/
theorem dead_key_flush (os : OsLayout) (dvk scan vk : Nat) (mods : ModState)
    (scans : List (Nat × Nat)) :
    (transStep os dvk mods scan vk false =
      (pureEntry os mods (scan, vk), false,
        ⟨false, vk, scan, mods⟩ ::
          (if (os.base vk scan mods).1 < 0 then
            [⟨true, VK_DECIMAL, dvk, mods⟩] else []))) ∧
    ((os.base vk scan mods).1 < 0 →
      pureEntry os mods (scan, vk) = (some (os.base vk scan mods).2, true)) ∧
    ((transRows os dvk scans modCombos false).1 =
      modCombos.map (fun m => (m, scans.map (pureEntry os m)))) ∧
    ((transRows os dvk scans modCombos false).2.1 = false) := by
  refine ⟨transStep_clean os dvk mods scan vk, ?_,
    (transRows_clean os dvk scans modCombos).1,
    (transRows_clean os dvk scans modCombos).2⟩
  intro hneg
  have h0 : (os.base vk scan mods).1 ≠ 0 := by omega
  simp [pureEntry, h0, hneg]

/-- Witness for C8 at the all-dead oracle: translating `(scan, vk) = (2, 1)`
records a dead entry and issues exactly the main call followed by one
corrective call, leaving the layout state clean. -/
theorem dead_key_flush_witness :
    (osDead.base 1 2 (false, false, false)).1 < 0 ∧
    pureEntry osDead (false, false, false) (2, 1) =
      (some (osDead.base 1 2 (false, false, false)).2, true) ∧
    transStep osDead 110 (false, false, false) 2 1 false =
      (pureEntry osDead (false, false, false) (2, 1), false,
        [⟨false, 1, 2, (false, false, false)⟩,
         ⟨true, VK_DECIMAL, 110, (false, false, false)⟩]) := by
  have h := dead_key_flush osDead 110 2 1 (false, false, false) []
  refine ⟨by decide, h.2.1 (by decide), ?_⟩
  rw [h.1]
  simp [osDead]

/-- C10: `KeyTranslator.__call__(vk, is_press)` does not depend on
`is_press` — with the same cached layout data and the same sampled modifier
state the two calls are equal — and whenever the call returns a mapping its
`vk` field is the input `vk` unchanged. -/
theorem call_ignores_is_press (os : OsLayout) (t : KeyTranslator)
    (mods : ModState) (vk : Nat) :
    KeyTranslator.call os t mods vk true = KeyTranslator.call os t mods vk false ∧
    (∀ (b : Bool) (res : KeyCodeParams),
      KeyTranslator.call os t mods vk b = some res → res.vk = vk) := by
  refine ⟨rfl, ?_⟩
  intro b res h
  rw [KeyTranslator.call] at h
  cases hlk : alookup mods t.layout_data with
  | none => rw [hlk] at h; cases h
  | some row =>
    rw [hlk] at h
    simp only at h
    cases hg : row.get? (os.toScan vk) with
    | none => rw [hg] at h; cases h
    | some e =>
      rw [hg] at h
      cases h
      rfl

/-- Witness for C10 at a concrete one-row translator. -/
theorem call_ignores_is_press_witness :
    KeyTranslator.call osFlat tTiny (false, false, false) 0 true =
      KeyTranslator.call osFlat tTiny (false, false, false) 0 false ∧
    ({ char := some 'a', is_dead := false, vk := 0, scan := 0 } : KeyCodeParams).vk = 0 := by
  have h := call_ignores_is_press osFlat tTiny (false, false, false) 0
  exact ⟨h.1, h.2 true { char := some 'a', is_dead := false, vk := 0, scan := 0 } (by decide)⟩

end Pynput
